import Mathlib

/-!
# Verification of `beacon_placer.py`

A shallow embedding, in exact rational arithmetic, of the single source file
`src/beacon_placer.py`, which distributes `count` integer coordinates around a
centerpoint, equally separated by angle and constrained to an annulus.

Embedding conventions, used consistently below:

* Python floats are embedded as rationals (`ℚ`), and the float expressions of
  the source are read in exact real arithmetic.  One consequence is recorded
  where it matters (see `angle_of`): the loop angle `(360/count)*(i+1)` is
  exact here, while its IEEE evaluation can round the final product slightly
  above 360 (e.g. `count = 169`), reaching the generator's `None`
  fall-through.

* The source compares and minimises *Euclidean distances* (square roots).
  Since `Real.sqrt` is strictly monotone on nonnegative arguments (and squares
  of distances are exactly representable in `ℚ` while the distances themselves
  are not), we embed every distance by its *square*: `d < d'` iff `d² < d'²`,
  `d = d'` iff `d² = d'²`, and `min` commutes with squaring on nonnegatives.
  Every definition whose source value is a distance carries the suffix `_sq`.
  A bound check `dist < abs(b)` becomes `dist_sq < b ^ 2` (as `|b|² = b²`).

* `tan(radians(angle_deg))` is kept as an explicit function parameter
  `tanD : ℚ → ℚ` of every definition that uses it: the source's IEEE double
  tangent is one particular such function, so theorems quantified over all
  `tanD` cover the source, and concrete executions instantiate `tanD` with the
  exact rational values of the corresponding IEEE doubles.

* `sin`/`cos` are consulted by the source only at the five axis angles
  0, 90, 180, 270, 360 (inside the `angle_deg in [0,90,180,270,360]` branch),
  and only through the tests `|·| < 1e-10` and `0 < ·`.  The IEEE double
  values of `sin(radians(a))`/`cos(radians(a))` at those five angles differ
  from the exact values `0, ±1` by less than `2.5e-16 < 1e-10`, so the
  branch taken is the same as with the exact values; we embed the exact
  values (`sinDeg`/`cosDeg` below).

* Python exceptions are embedded as `Except PyError`: the `IndexError` of
  `arr[0]` on an empty list, the `TypeError` of iterating `None`, and the
  `Warning` raised by the final length check (`generationIncomplete`).

* Python's `list.sort(key=...)` is a stable sort by the key, compared
  lexicographically.  We embed it with the stable `List.insertionSort`:
  stable sorts by the same total preorder agree on every input list.

* Python's `round` is round-half-to-even (`pyround` below); `range` is
  `pythonRange`.
-/

namespace BeaconPlacer

/-- Square of `distance_between_two_points(c1, c2)` from the source
(`sqrt((x2-x1)**2 + (y2-y1)**2)`); see the `_sq` convention in the header. -/
def distance_between_two_points_sq (c1 c2 : ℚ × ℚ) : ℚ :=
  (c2.1 - c1.1) ^ 2 + (c2.2 - c1.2) ^ 2

/-- Square of `distance_to_centerpoint(x, y)` from the source: 0 when both
coordinates are integral (`isinstance(x, int) and isinstance(y, int)`, which in
`ℚ` we read as `den = 1`), otherwise the minimum over the four surrounding
lattice points, associated exactly as Python's `min(tr, bl, tl, br)`.
(The square of a minimum of nonnegative distances is the minimum of the
squares.) -/
def distance_to_centerpoint_sq (x y : ℚ) : ℚ :=
  if x.den = 1 ∧ y.den = 1 then 0
  else
    let round_up_x : ℚ := ⌈x⌉
    let round_up_y : ℚ := ⌈y⌉
    let round_down_x : ℚ := ⌊x⌋
    let round_down_y : ℚ := ⌊y⌋
    let distance_tr := (x - round_up_x) ^ 2 + (y - round_up_y) ^ 2
    let distance_tl := (x - round_down_x) ^ 2 + (y - round_up_y) ^ 2
    let distance_bl := (x - round_down_x) ^ 2 + (y - round_down_y) ^ 2
    let distance_br := (x - round_up_x) ^ 2 + (y - round_down_y) ^ 2
    min (min (min distance_tr distance_bl) distance_tl) distance_br

/-- Python's `range(lower, upper, step)` as a list of integers. -/
def pythonRange (lower upper step : ℤ) : List ℤ :=
  if 0 < step then
    (List.range (((upper - lower) + step - 1) / step).toNat).map (fun k => lower + step * k)
  else if step < 0 then
    (List.range (((lower - upper) + (-step) - 1) / (-step)).toNat).map (fun k => lower + step * k)
  else []

/-- `x_generator(lower, upper, lower_bounds, upper_bounds, angle, step)` from
the source: for integer `x` in the range, the point `[x, angle * x]` is yielded
when `lower_bounds < distance([0,0], p) < upper_bounds` (strictly; the source
compares `distance < abs(upper_bounds) and distance > abs(lower_bounds)`,
which squared is `dist_sq < upper_bounds² ∧ lower_bounds² < dist_sq`).
The `debug` printing parameter of the source is omitted. -/
def x_generator (lower upper lower_bounds upper_bounds : ℤ) (angle : ℚ) (step : ℤ) :
    List (ℚ × ℚ) :=
  (pythonRange lower upper step).filterMap (fun (x : ℤ) =>
    let y : ℚ := angle * (x : ℚ)
    let distance_sq := distance_between_two_points_sq (0, 0) ((x : ℚ), y)
    if distance_sq < (upper_bounds : ℚ) ^ 2 ∧ (lower_bounds : ℚ) ^ 2 < distance_sq then
      some ((x : ℚ), angle * (x : ℚ))
    else none)

/-- `y_generator(lower, upper, lower_bounds, upper_bounds, angle, step)` from
the source: for integer `y` in the range, `x = 0` when `angle == 0` and
`x = y / angle` otherwise, with the same strict annulus filter. -/
def y_generator (lower upper lower_bounds upper_bounds : ℤ) (angle : ℚ) (step : ℤ) :
    List (ℚ × ℚ) :=
  (pythonRange lower upper step).filterMap (fun (y : ℤ) =>
    let x : ℚ := if angle = 0 then 0 else (y : ℚ) / angle
    let distance_sq := distance_between_two_points_sq (0, 0) (x, (y : ℚ))
    if distance_sq < (upper_bounds : ℚ) ^ 2 ∧ (lower_bounds : ℚ) ^ 2 < distance_sq then
      some (x, (y : ℚ))
    else none)

/-- `coordinate_generator(lower_bounds, upper_bounds, angle_deg)` from the
source: the pair of scan results for the quadrant of `angle_deg`, or `none`
when every quadrant test fails (`angle_deg >= 360`: the Python function falls
through all four `if`s and implicitly returns `None`).  `angle_tan` stands for
`tan(radians(angle_deg))`, supplied through the `tanD` parameter. -/
def coordinate_generator (tanD : ℚ → ℚ) (lower_bounds upper_bounds : ℤ) (angle_deg : ℚ) :
    Option (List (ℚ × ℚ) × List (ℚ × ℚ)) :=
  let angle_tan := tanD angle_deg
  if angle_deg < 90 then
    some (x_generator 1 upper_bounds lower_bounds upper_bounds angle_tan 1,
          y_generator 1 upper_bounds lower_bounds upper_bounds angle_tan 1)
  else if angle_deg < 180 then
    some (x_generator (-1) (-upper_bounds) lower_bounds upper_bounds angle_tan (-1),
          y_generator 1 upper_bounds lower_bounds upper_bounds angle_tan 1)
  else if angle_deg < 270 then
    some (x_generator (-1) (-upper_bounds) lower_bounds upper_bounds angle_tan (-1),
          y_generator (-1) (-upper_bounds) lower_bounds upper_bounds angle_tan (-1))
  else if angle_deg < 360 then
    some (x_generator 1 upper_bounds lower_bounds upper_bounds angle_tan 1,
          y_generator (-1) (-upper_bounds) lower_bounds upper_bounds angle_tan (-1))
  else none

/-- Square-embedded `custom_sort(item)` from the source: the sort key
`(item[0], distance_between_two_points([0,0], item[1]))`, both components
squared per the `_sq` convention (lexicographic comparison of pairs of
nonnegative reals is preserved by squaring componentwise). -/
def custom_sort_sq (item : ℚ × (ℚ × ℚ)) : ℚ × ℚ :=
  (item.1, distance_between_two_points_sq (0, 0) item.2)

/-- Lexicographic order on sort keys, exactly Python's `<=` on 2-tuples. -/
def keyLe (u v : ℚ × ℚ) : Prop := u.1 < v.1 ∨ (u.1 = v.1 ∧ u.2 ≤ v.2)

instance : DecidableRel keyLe := fun u v =>
  inferInstanceAs (Decidable (u.1 < v.1 ∨ (u.1 = v.1 ∧ u.2 ≤ v.2)))

/-- The preorder `arr.sort(key=custom_sort)` sorts by. -/
def sortKeyLe (a b : ℚ × (ℚ × ℚ)) : Prop := keyLe (custom_sort_sq a) (custom_sort_sq b)

instance : DecidableRel sortKeyLe := fun a b =>
  inferInstanceAs (Decidable (keyLe (custom_sort_sq a) (custom_sort_sq b)))

/-- Python's built-in `round`: round half to even (banker's rounding). -/
def pyround (q : ℚ) : ℤ :=
  if q - ⌊q⌋ < 1 / 2 then ⌊q⌋
  else if 1 / 2 < q - ⌊q⌋ then ⌊q⌋ + 1
  else if ⌊q⌋ % 2 = 0 then ⌊q⌋ else ⌊q⌋ + 1

/-- The exceptional outcomes of `coordinate_placement`: the `IndexError` of
`arr[0]` on an empty candidate list, the `TypeError` of
`chain.from_iterable(None)`, and the `Warning` of the final length check
("Not all coordinates were generated. Consider changing the minimum and
maximum radius."). -/
inductive PyError where
  | indexError
  | typeError
  | generationIncomplete
deriving DecidableEq

/-- Exact value of `sin(radians(a))` at the five axis angles (the only places
the source evaluates it); see the header for why the IEEE values take the same
branches. -/
def sinDeg (a : ℚ) : ℚ :=
  if a = 90 then 1 else if a = 270 then -1 else 0

/-- Exact value of `cos(radians(a))` at the five axis angles. -/
def cosDeg (a : ℚ) : ℚ :=
  if a = 90 ∨ a = 270 then 0 else if a = 180 then -1 else 1

/-- The `epsilon = 1e-10` tolerance of `coordinate_placement`. -/
def epsilon : ℚ := 1 / 10 ^ 10

/-- Membership test `angle_deg in [0, 90, 180, 270, 360]` from the source. -/
def isAxisDeg (a : ℚ) : Prop := a = 0 ∨ a = 90 ∨ a = 180 ∨ a = 270 ∨ a = 360

instance : DecidablePred isAxisDeg := fun a =>
  inferInstanceAs (Decidable (a = 0 ∨ a = 90 ∨ a = 180 ∨ a = 270 ∨ a = 360))

/-- One iteration of the `for i in range(count)` loop of
`coordinate_placement`, at angle `angle_deg`, with `lower_bounds = minimum`
and `upper_bounds = maximum`: either an exception, or `some` appended point,
or `none` when the iteration appends nothing (the axis branch falls through
both tolerance tests — unreachable with the exact trig values, but kept to
mirror the source). -/
def placementStep (tanD : ℚ → ℚ) (lower_bounds upper_bounds : ℤ) (angle_deg : ℚ) :
    Except PyError (Option (ℤ × ℤ)) :=
  if isAxisDeg angle_deg then
    let x := cosDeg angle_deg
    let y := sinDeg angle_deg
    if |y| < epsilon then
      if 0 < x then .ok (some (lower_bounds, 0)) else .ok (some (-lower_bounds, 0))
    else if |x| < epsilon then
      if 0 < y then .ok (some (0, lower_bounds)) else .ok (some (0, -lower_bounds))
    else .ok none
  else
    match coordinate_generator tanD lower_bounds upper_bounds angle_deg with
    | none => .error .typeError
    | some gens =>
      let points := gens.1 ++ gens.2
      let arr := points.map (fun p => (distance_to_centerpoint_sq p.1 p.2, p))
      match List.insertionSort sortKeyLe arr with
      | [] => .error .indexError
      | best :: _ => .ok (some (pyround best.2.1, pyround best.2.2))

/-- The angle of loop iteration `i`: `(360 / count) * (i + 1)`, read in exact
rational arithmetic.  Caution: this reading makes the final loop angle exactly
360 for every count, so it is always axis-classified; in IEEE doubles the
product can instead round just above 360 (for `count = 169` it is
`360.00000000000006`), in which case the real program reaches the `None`
fall-through of `coordinate_generator` and fails with a `TypeError`.
Loop-level theorems below are therefore statements about this exact reading;
the fall-through itself is settled at the generator level. -/
def angle_of (count : ℕ) (i : ℕ) : ℚ := (360 / (count : ℚ)) * ((i : ℚ) + 1)

/-- The loop of `coordinate_placement` over the remaining iteration indices,
propagating the first exception (as Python exceptions abort the loop) and
collecting the appended points in order. -/
def placeLoop (tanD : ℚ → ℚ) (count : ℕ) (lower_bounds upper_bounds : ℤ) :
    List ℕ → Except PyError (List (ℤ × ℤ))
  | [] => .ok []
  | i :: rest =>
    match placementStep tanD lower_bounds upper_bounds (angle_of count i) with
    | .error e => .error e
    | .ok p =>
      match placeLoop tanD count lower_bounds upper_bounds rest with
      | .error e => .error e
      | .ok r =>
        .ok (match p with
          | some q => q :: r
          | none => r)

/-- `coordinate_placement(count, offset, minimum, maximum)` from the source
(source defaults: `offset=(0,0)`, `minimum=10`, `maximum=20`): run the loop,
add the offset to every collected point, and raise the
`Warning`/`generationIncomplete` when the final length differs from `count`.
The commented-out uniqueness check of the source is (as in the source) not
performed. -/
def coordinate_placement (tanD : ℚ → ℚ) (count : ℕ) (offset : ℚ × ℚ)
    (minimum maximum : ℤ) : Except PyError (List (ℚ × ℚ)) :=
  match placeLoop tanD count minimum maximum (List.range count) with
  | .error e => .error e
  | .ok result0 =>
    let result := result0.map (fun p => ((p.1 : ℚ) + offset.1, (p.2 : ℚ) + offset.2))
    if result.length ≠ count then .error .generationIncomplete else .ok result

/-- The candidate pool of one non-axis iteration:
`list(chain.from_iterable(coordinate_generator(...)))` (empty-by-convention
when the generator returned `None`; the source instead fails there, see
`placementStep`). -/
def candidatePool (tanD : ℚ → ℚ) (lower_bounds upper_bounds : ℤ) (angle_deg : ℚ) :
    List (ℚ × ℚ) :=
  match coordinate_generator tanD lower_bounds upper_bounds angle_deg with
  | none => []
  | some gens => gens.1 ++ gens.2

/-- The tangent function actually used by the source for `count = 9`: the
exact rational values of the IEEE-754 double `tan(radians(a))` at the nine
loop angles `40 * k` (the ninth, 360, is axis-classified and never reaches
the tangent). Every IEEE double is an exact rational; these are transcribed
verbatim (numerator over a power-of-two denominator). -/
def tanDeg9 : ℚ → ℚ := fun a =>
  if a = 40 then 7557937572593437 / 9007199254740992
  else if a = 80 then 6385295672385843 / 1125899906842624
  else if a = 120 then -7800463371553967 / 4503599627370496
  else if a = 160 then -819588105707611 / 2251799813685248
  else if a = 200 then 6556704845660883 / 18014398509481984
  else if a = 240 then 3900231685776977 / 2251799813685248
  else if a = 280 then -6385295672385861 / 1125899906842624
  else if a = 320 then -7557937572593443 / 9007199254740992
  else 0

/-- A concrete tangent function for witnesses (slope 1 everywhere). -/
def tanConst1 : ℚ → ℚ := fun _ => 1

/-- A second concrete tangent function for witnesses (slope 2 everywhere). -/
def tanConst2 : ℚ → ℚ := fun _ => 2

instance {ε α : Type} [DecidableEq ε] [DecidableEq α] : DecidableEq (Except ε α) :=
  fun a b =>
    match a, b with
    | .ok x, .ok y =>
      if h : x = y then isTrue (by rw [h]) else isFalse (by intro hh; cases hh; exact h rfl)
    | .error e, .error f =>
      if h : e = f then isTrue (by rw [h]) else isFalse (by intro hh; cases hh; exact h rfl)
    | .ok _, .error _ => isFalse (by intro hh; cases hh)
    | .error _, .ok _ => isFalse (by intro hh; cases hh)

/-! ## Order properties of the sort key -/

theorem keyLe_refl (u : ℚ × ℚ) : keyLe u u := Or.inr ⟨rfl, le_refl _⟩

theorem keyLe_trans {u v w : ℚ × ℚ} (huv : keyLe u v) (hvw : keyLe v w) : keyLe u w := by
  rcases huv with h1 | ⟨h1, h1'⟩ <;> rcases hvw with h2 | ⟨h2, h2'⟩
  · exact Or.inl (h1.trans h2)
  · exact Or.inl (h2 ▸ h1)
  · exact Or.inl (h1 ▸ h2)
  · exact Or.inr ⟨h1.trans h2, h1'.trans h2'⟩

theorem keyLe_total (u v : ℚ × ℚ) : keyLe u v ∨ keyLe v u := by
  rcases lt_trichotomy u.1 v.1 with h | h | h
  · exact Or.inl (Or.inl h)
  · rcases le_total u.2 v.2 with h' | h'
    · exact Or.inl (Or.inr ⟨h, h'⟩)
    · exact Or.inr (Or.inr ⟨h.symm, h'⟩)
  · exact Or.inr (Or.inl h)

instance : IsTrans (ℚ × (ℚ × ℚ)) sortKeyLe :=
  ⟨fun _ _ _ hab hbc => keyLe_trans hab hbc⟩

instance : IsTotal (ℚ × (ℚ × ℚ)) sortKeyLe :=
  ⟨fun _ _ => keyLe_total _ _⟩

/-! ## Generator membership -/

theorem mem_x_generator {lower upper lower_bounds upper_bounds : ℤ} {angle : ℚ} {step : ℤ}
    {p : ℚ × ℚ} :
    p ∈ x_generator lower upper lower_bounds upper_bounds angle step ↔
      ∃ x : ℤ, x ∈ pythonRange lower upper step ∧ p = ((x : ℚ), angle * (x : ℚ)) ∧
        (lower_bounds : ℚ) ^ 2 < distance_between_two_points_sq (0, 0) p ∧
        distance_between_two_points_sq (0, 0) p < (upper_bounds : ℚ) ^ 2 := by
  unfold x_generator
  rw [List.mem_filterMap]
  constructor
  · rintro ⟨x, hx, hfx⟩
    dsimp only at hfx
    split_ifs at hfx with hcond
    obtain rfl : ((x : ℚ), angle * (x : ℚ)) = p := by injection hfx
    exact ⟨x, hx, rfl, hcond.2, hcond.1⟩
  · rintro ⟨x, hx, rfl, hl, hu⟩
    refine ⟨x, hx, ?_⟩
    dsimp only
    rw [if_pos ⟨hu, hl⟩]

theorem mem_y_generator {lower upper lower_bounds upper_bounds : ℤ} {angle : ℚ} {step : ℤ}
    {p : ℚ × ℚ} :
    p ∈ y_generator lower upper lower_bounds upper_bounds angle step ↔
      ∃ y : ℤ, y ∈ pythonRange lower upper step ∧
        p = ((if angle = 0 then 0 else (y : ℚ) / angle), (y : ℚ)) ∧
        (lower_bounds : ℚ) ^ 2 < distance_between_two_points_sq (0, 0) p ∧
        distance_between_two_points_sq (0, 0) p < (upper_bounds : ℚ) ^ 2 := by
  unfold y_generator
  rw [List.mem_filterMap]
  constructor
  · rintro ⟨y, hy, hfy⟩
    dsimp only at hfy
    by_cases ha : angle = 0
    · simp only [if_pos ha] at hfy
      split_ifs at hfy with hcond
      obtain rfl : ((0 : ℚ), (y : ℚ)) = p := by injection hfy
      refine ⟨y, hy, ?_, hcond.2, hcond.1⟩
      rw [if_pos ha]
    · simp only [if_neg ha] at hfy
      split_ifs at hfy with hcond
      obtain rfl : ((y : ℚ) / angle, (y : ℚ)) = p := by injection hfy
      refine ⟨y, hy, ?_, hcond.2, hcond.1⟩
      rw [if_neg ha]
  · rintro ⟨y, hy, rfl, hl, hu⟩
    refine ⟨y, hy, ?_⟩
    dsimp only
    rw [if_pos]
    exact ⟨hu, hl⟩

/-- Every candidate in the pool of an iteration satisfies the strict squared
annulus bounds, whatever the tangent function and angle. -/
theorem candidatePool_bounds {tanD : ℚ → ℚ} {L U : ℤ} {a : ℚ} {c : ℚ × ℚ}
    (hc : c ∈ candidatePool tanD L U a) :
    (L : ℚ) ^ 2 < distance_between_two_points_sq (0, 0) c ∧
      distance_between_two_points_sq (0, 0) c < (U : ℚ) ^ 2 := by
  unfold candidatePool at hc
  cases hcg : coordinate_generator tanD L U a with
  | none => rw [hcg] at hc; cases hc
  | some gens =>
    rw [hcg] at hc
    unfold coordinate_generator at hcg
    have main : c ∈ gens.1 ++ gens.2 := hc
    dsimp only at hcg
    split_ifs at hcg
    all_goals
      injection hcg with h
      subst h
      rcases List.mem_append.mp main with h' | h'
      · obtain ⟨x, -, -, hl, hu⟩ := mem_x_generator.mp h'
        exact ⟨hl, hu⟩
      · obtain ⟨y, -, -, hl, hu⟩ := mem_y_generator.mp h'
        exact ⟨hl, hu⟩

/-! ## The axis branch -/

/-- Evaluation of the axis branch at each of the five axis angles: the point
is placed at exactly the `lower_bounds = minimum` radius on the corresponding
axis, with the sign dictated by the exact cosine/sine. -/
theorem placementStep_axis (tanD : ℚ → ℚ) (L U : ℤ) :
    placementStep tanD L U 0 = .ok (some (L, 0)) ∧
    placementStep tanD L U 90 = .ok (some (0, L)) ∧
    placementStep tanD L U 180 = .ok (some (-L, 0)) ∧
    placementStep tanD L U 270 = .ok (some (0, -L)) ∧
    placementStep tanD L U 360 = .ok (some (L, 0)) := by
  refine ⟨?_, ?_, ?_, ?_, ?_⟩ <;>
    · unfold placementStep
      rw [if_pos (by unfold isAxisDeg; norm_num)]
      norm_num [sinDeg, cosDeg, epsilon]

/-- A step that returns without an exception always appends a point: the axis
branch always classifies (one of the exact sine/cosine values is 0), and the
general branch returns `ok` only from a selected candidate. -/
theorem placementStep_ok_some {tanD : ℚ → ℚ} {L U : ℤ} {a : ℚ} {p : Option (ℤ × ℤ)}
    (h : placementStep tanD L U a = .ok p) : ∃ q, p = some q := by
  by_cases hax : isAxisDeg a
  · unfold isAxisDeg at hax
    rcases hax with rfl | rfl | rfl | rfl | rfl
    · exact ⟨(L, 0), (Except.ok.inj ((placementStep_axis tanD L U).1.symm.trans h)).symm⟩
    · exact ⟨(0, L), (Except.ok.inj ((placementStep_axis tanD L U).2.1.symm.trans h)).symm⟩
    · exact ⟨(-L, 0), (Except.ok.inj ((placementStep_axis tanD L U).2.2.1.symm.trans h)).symm⟩
    · exact ⟨(0, -L), (Except.ok.inj ((placementStep_axis tanD L U).2.2.2.1.symm.trans h)).symm⟩
    · exact ⟨(L, 0), (Except.ok.inj ((placementStep_axis tanD L U).2.2.2.2.symm.trans h)).symm⟩
  · unfold placementStep at h
    rw [if_neg hax] at h
    cases hcg : coordinate_generator tanD L U a with
    | none => rw [hcg] at h; cases h
    | some gens =>
      rw [hcg] at h
      dsimp only at h
      split at h
      · cases h
      · exact ⟨_, (Except.ok.inj h).symm⟩

/-- Every angle strictly below 360 falls into one of the four quadrant
branches of `coordinate_generator`. -/
theorem coordinate_generator_some (tanD : ℚ → ℚ) (L U : ℤ) {a : ℚ} (h : a < 360) :
    ∃ gens, coordinate_generator tanD L U a = some gens := by
  unfold coordinate_generator
  dsimp only
  split_ifs
  all_goals exact ⟨_, rfl⟩

/-- Evaluation of a non-axis step through the generator, tolerance map, sort,
selection and rounding. -/
theorem placementStep_nonaxis_eval {tanD : ℚ → ℚ} {L U : ℤ} {a : ℚ}
    {gens : List (ℚ × ℚ) × List (ℚ × ℚ)} (hax : ¬ isAxisDeg a)
    (hcg : coordinate_generator tanD L U a = some gens) :
    placementStep tanD L U a =
      match List.insertionSort sortKeyLe
          ((gens.1 ++ gens.2).map (fun p => (distance_to_centerpoint_sq p.1 p.2, p))) with
      | [] => .error .indexError
      | best :: _ => .ok (some (pyround best.2.1, pyround best.2.2)) := by
  unfold placementStep
  rw [if_neg hax, hcg]

/-- Under the loop's angles (all at most 360), the only exception a step can
raise is the `IndexError` of selecting from an empty sorted candidate list. -/
theorem placementStep_error_eq {tanD : ℚ → ℚ} {L U : ℤ} {a : ℚ} {e : PyError}
    (hle : a ≤ 360) (h : placementStep tanD L U a = .error e) : e = .indexError := by
  by_cases hax : isAxisDeg a
  · unfold isAxisDeg at hax
    rcases hax with rfl | rfl | rfl | rfl | rfl
    · rw [(placementStep_axis tanD L U).1] at h; cases h
    · rw [(placementStep_axis tanD L U).2.1] at h; cases h
    · rw [(placementStep_axis tanD L U).2.2.1] at h; cases h
    · rw [(placementStep_axis tanD L U).2.2.2.1] at h; cases h
    · rw [(placementStep_axis tanD L U).2.2.2.2] at h; cases h
  · have ha360 : a < 360 := by
      rcases lt_or_eq_of_le hle with h' | rfl
      · exact h'
      · exact absurd (by unfold isAxisDeg; norm_num : isAxisDeg (360 : ℚ)) hax
    obtain ⟨gens, hcg⟩ := coordinate_generator_some tanD L U ha360
    rw [placementStep_nonaxis_eval hax hcg] at h
    split at h
    · exact (Except.error.inj h).symm
    · cases h

/-- A non-axis step with an empty candidate pool raises the `IndexError`. -/
theorem placementStep_of_empty_pool {tanD : ℚ → ℚ} {L U : ℤ} {a : ℚ}
    (hax : ¬ isAxisDeg a) (h360 : a < 360)
    (hpool : candidatePool tanD L U a = []) :
    placementStep tanD L U a = .error .indexError := by
  obtain ⟨gens, hcg⟩ := coordinate_generator_some tanD L U h360
  have hp : gens.1 ++ gens.2 = [] := by
    unfold candidatePool at hpool
    rw [hcg] at hpool
    exact hpool
  rw [placementStep_nonaxis_eval hax hcg, hp]
  rfl

/-- A non-axis step with a nonempty candidate pool selects a candidate that is
minimal in the pool for the lexicographic key (lattice-snap distance, origin
distance) and appends it, each coordinate rounded. -/
theorem placementStep_select {tanD : ℚ → ℚ} {L U : ℤ} {a : ℚ}
    (hax : ¬ isAxisDeg a) (h360 : a < 360)
    (hpool : candidatePool tanD L U a ≠ []) :
    ∃ best, best ∈ candidatePool tanD L U a ∧
      (∀ c ∈ candidatePool tanD L U a,
        keyLe (distance_to_centerpoint_sq best.1 best.2,
               distance_between_two_points_sq (0, 0) best)
              (distance_to_centerpoint_sq c.1 c.2,
               distance_between_two_points_sq (0, 0) c)) ∧
      placementStep tanD L U a = .ok (some (pyround best.1, pyround best.2)) := by
  obtain ⟨gens, hcg⟩ := coordinate_generator_some tanD L U h360
  have hpooleq : candidatePool tanD L U a = gens.1 ++ gens.2 := by
    unfold candidatePool
    rw [hcg]
  rw [hpooleq] at hpool
  cases hs : List.insertionSort sortKeyLe
      ((gens.1 ++ gens.2).map (fun p => (distance_to_centerpoint_sq p.1 p.2, p))) with
  | nil =>
    exfalso
    have hlen := (List.perm_insertionSort sortKeyLe
      ((gens.1 ++ gens.2).map (fun p => (distance_to_centerpoint_sq p.1 p.2, p)))).length_eq
    rw [hs] at hlen
    simp only [List.length_nil, List.length_map] at hlen
    exact hpool (List.length_eq_zero.mp hlen.symm)
  | cons b t =>
    have hbmem : b ∈ (gens.1 ++ gens.2).map (fun p => (distance_to_centerpoint_sq p.1 p.2, p)) := by
      rw [← List.mem_insertionSort (r := sortKeyLe), hs]
      exact List.mem_cons_self b t
    obtain ⟨best, hbest, hfb⟩ := List.mem_map.mp hbmem
    have hsorted : List.Sorted sortKeyLe (b :: t) := by
      rw [← hs]
      exact List.sorted_insertionSort sortKeyLe _
    refine ⟨best, hpooleq ▸ hbest, ?_, ?_⟩
    · intro c hc
      rw [hpooleq] at hc
      have hcmem : (distance_to_centerpoint_sq c.1 c.2, c) ∈ b :: t := by
        rw [← hs, List.mem_insertionSort]
        exact List.mem_map_of_mem _ hc
      have hgoal : sortKeyLe (distance_to_centerpoint_sq best.1 best.2, best)
          (distance_to_centerpoint_sq c.1 c.2, c) := by
        rcases List.mem_cons.mp hcmem with heq | hmem
        · rw [← hfb] at heq
          rw [← heq]
          exact keyLe_refl _
        · have h5 := (List.sorted_cons.mp hsorted).1 _ hmem
          rw [← hfb] at h5
          exact h5
      exact hgoal
    · rw [placementStep_nonaxis_eval hax hcg, hs]
      rw [← hfb]

/-! ## Rounding -/

/-- `pyround` rounds to a nearest integer: the result differs from the input
by at most 1/2. -/
theorem pyround_nearest (q : ℚ) : |(pyround q : ℚ) - q| ≤ 1 / 2 := by
  have h0 : ((⌊q⌋ : ℤ) : ℚ) ≤ q := Int.floor_le q
  have h1 : q < ⌊q⌋ + 1 := Int.lt_floor_add_one q
  unfold pyround
  split_ifs with hlt hgt heven
  · rw [abs_le]
    constructor <;> linarith
  · push_cast
    rw [abs_le]
    constructor <;> linarith
  · have heq : q - ⌊q⌋ = 1 / 2 := le_antisymm (not_lt.mp hgt) (not_lt.mp hlt)
    rw [abs_le]
    constructor <;> linarith
  · have heq : q - ⌊q⌋ = 1 / 2 := le_antisymm (not_lt.mp hgt) (not_lt.mp hlt)
    push_cast
    rw [abs_le]
    constructor <;> linarith

/-! ## Angle arithmetic -/

theorem angle_of_le_360 {count : ℕ} (hc : 1 ≤ count) {i : ℕ} (hi : i < count) :
    angle_of count i ≤ 360 := by
  unfold angle_of
  have hcpos : (0 : ℚ) < (count : ℚ) := by
    have : (1 : ℚ) ≤ (count : ℚ) := by exact_mod_cast hc
    linarith
  rw [div_mul_eq_mul_div, div_le_iff₀ hcpos]
  have hle : ((i : ℚ) + 1) ≤ (count : ℚ) := by exact_mod_cast hi
  nlinarith

theorem isAxisDeg_360 : isAxisDeg (360 : ℚ) := by
  unfold isAxisDeg
  norm_num

theorem angle_of_lt_360_of_not_axis {count : ℕ} (hc : 1 ≤ count) {i : ℕ} (hi : i < count)
    (hax : ¬ isAxisDeg (angle_of count i)) : angle_of count i < 360 := by
  rcases lt_or_eq_of_le (angle_of_le_360 hc hi) with h | h
  · exact h
  · exact absurd (h ▸ isAxisDeg_360) hax

/-! ## The placement loop -/

theorem placeLoop_ok_steps {tanD : ℚ → ℚ} {count : ℕ} {L U : ℤ} :
    ∀ {l : List ℕ} {r}, placeLoop tanD count L U l = .ok r →
      ∀ i ∈ l, ∃ p, placementStep tanD L U (angle_of count i) = .ok p := by
  intro l
  induction l with
  | nil =>
    intro r _ i hi
    cases hi
  | cons j rest ih =>
    intro r h i hi
    unfold placeLoop at h
    cases hstep : placementStep tanD L U (angle_of count j) with
    | error e =>
      rw [hstep] at h
      cases h
    | ok p =>
      rw [hstep] at h
      dsimp only at h
      cases hrest : placeLoop tanD count L U rest with
      | error e =>
        rw [hrest] at h
        cases h
      | ok rr =>
        rcases List.mem_cons.mp hi with rfl | hmem
        · exact ⟨p, hstep⟩
        · exact ih hrest i hmem

theorem placeLoop_ok_length {tanD : ℚ → ℚ} {count : ℕ} {L U : ℤ} :
    ∀ {l : List ℕ} {r}, placeLoop tanD count L U l = .ok r → r.length = l.length := by
  intro l
  induction l with
  | nil =>
    intro r h
    obtain rfl := Except.ok.inj h
    rfl
  | cons j rest ih =>
    intro r h
    unfold placeLoop at h
    cases hstep : placementStep tanD L U (angle_of count j) with
    | error e =>
      rw [hstep] at h
      cases h
    | ok p =>
      rw [hstep] at h
      dsimp only at h
      cases hrest : placeLoop tanD count L U rest with
      | error e =>
        rw [hrest] at h
        cases h
      | ok rr =>
        rw [hrest] at h
        dsimp only at h
        obtain ⟨q, rfl⟩ := placementStep_ok_some hstep
        obtain rfl := Except.ok.inj h
        simp [ih hrest]

theorem placeLoop_error_exists {tanD : ℚ → ℚ} {count : ℕ} {L U : ℤ} :
    ∀ {l : List ℕ} {e}, placeLoop tanD count L U l = .error e →
      ∃ i ∈ l, placementStep tanD L U (angle_of count i) = .error e := by
  intro l
  induction l with
  | nil =>
    intro e h
    cases h
  | cons j rest ih =>
    intro e h
    unfold placeLoop at h
    cases hstep : placementStep tanD L U (angle_of count j) with
    | error e' =>
      rw [hstep] at h
      obtain rfl := Except.error.inj h
      exact ⟨j, List.mem_cons_self _ _, hstep⟩
    | ok p =>
      rw [hstep] at h
      dsimp only at h
      cases hrest : placeLoop tanD count L U rest with
      | error e' =>
        rw [hrest] at h
        dsimp only at h
        obtain rfl := Except.error.inj h
        obtain ⟨i, hi, hstep'⟩ := ih hrest
        exact ⟨i, List.mem_cons_of_mem _ hi, hstep'⟩
      | ok rr =>
        rw [hrest] at h
        dsimp only at h
        cases h

/-- A pool is empty whenever the annulus is, in particular for inverted or
equal bounds. -/
theorem candidatePool_empty_of_inverted {tanD : ℚ → ℚ} {L U : ℤ} {a : ℚ}
    (hLU : (U : ℚ) ^ 2 ≤ (L : ℚ) ^ 2) : candidatePool tanD L U a = [] := by
  rw [List.eq_nil_iff_forall_not_mem]
  intro c hc
  have hb := candidatePool_bounds hc
  linarith [hb.1, hb.2]

/-- If some loop angle is non-axis with an empty candidate pool, the whole
call raises the `IndexError`. -/
theorem cp_indexError_of_empty_pool {tanD : ℚ → ℚ} {count : ℕ} {offset : ℚ × ℚ} {L U : ℤ}
    (hc : 1 ≤ count) {i : ℕ} (hi : i < count)
    (hax : ¬ isAxisDeg (angle_of count i))
    (hpool : candidatePool tanD L U (angle_of count i) = []) :
    coordinate_placement tanD count offset L U = .error .indexError := by
  have hstep := placementStep_of_empty_pool hax (angle_of_lt_360_of_not_axis hc hi hax) hpool
  unfold coordinate_placement
  cases hl : placeLoop tanD count L U (List.range count) with
  | ok base =>
    exfalso
    obtain ⟨p, hp⟩ := placeLoop_ok_steps hl i (List.mem_range.mpr hi)
    rw [hstep] at hp
    cases hp
  | error e =>
    obtain ⟨j, hj, hstepj⟩ := placeLoop_error_exists hl
    obtain rfl := placementStep_error_eq (angle_of_le_360 hc (List.mem_range.mp hj)) hstepj
    rfl

/-! ## Claim C4 — the axis special case -/

/-- Claim C4: for every angle that is exactly one of 0, 90, 180, 270 or 360
degrees, the placement iteration puts the point at exactly the minimum radius
on the corresponding axis — on the x-axis with the sign of the cosine when
the sine is within 1e-10 of 0, on the y-axis with the sign of the sine when
the cosine is — and performs no candidate generation for that angle (the
outcome does not depend on the tangent function at all). -/
theorem axis_step_exact (tanD tanD' : ℚ → ℚ) (L U : ℤ) (a : ℚ) (hax : isAxisDeg a) :
    placementStep tanD L U a = placementStep tanD' L U a ∧
    ((a = 0 ∨ a = 360) → placementStep tanD L U a = .ok (some (L, 0))) ∧
    (a = 180 → placementStep tanD L U a = .ok (some (-L, 0))) ∧
    (a = 90 → placementStep tanD L U a = .ok (some (0, L))) ∧
    (a = 270 → placementStep tanD L U a = .ok (some (0, -L))) := by
  unfold isAxisDeg at hax
  rcases hax with rfl | rfl | rfl | rfl | rfl
  · exact ⟨(placementStep_axis tanD L U).1.trans (placementStep_axis tanD' L U).1.symm,
      fun _ => (placementStep_axis tanD L U).1,
      fun h => by norm_num at h,
      fun h => by norm_num at h,
      fun h => by norm_num at h⟩
  · exact ⟨(placementStep_axis tanD L U).2.1.trans (placementStep_axis tanD' L U).2.1.symm,
      fun h => by rcases h with h | h <;> norm_num at h,
      fun h => by norm_num at h,
      fun _ => (placementStep_axis tanD L U).2.1,
      fun h => by norm_num at h⟩
  · exact ⟨(placementStep_axis tanD L U).2.2.1.trans (placementStep_axis tanD' L U).2.2.1.symm,
      fun h => by rcases h with h | h <;> norm_num at h,
      fun _ => (placementStep_axis tanD L U).2.2.1,
      fun h => by norm_num at h,
      fun h => by norm_num at h⟩
  · exact ⟨(placementStep_axis tanD L U).2.2.2.1.trans (placementStep_axis tanD' L U).2.2.2.1.symm,
      fun h => by rcases h with h | h <;> norm_num at h,
      fun h => by norm_num at h,
      fun h => by norm_num at h,
      fun _ => (placementStep_axis tanD L U).2.2.2.1⟩
  · exact ⟨(placementStep_axis tanD L U).2.2.2.2.trans (placementStep_axis tanD' L U).2.2.2.2.symm,
      fun _ => (placementStep_axis tanD L U).2.2.2.2,
      fun h => by norm_num at h,
      fun h => by norm_num at h,
      fun h => by norm_num at h⟩

/-- Witness for C4 at the concrete angle 90 with minimum 7, maximum 9 and two
different tangent functions. -/
theorem axis_step_exact_witness :
    placementStep tanConst1 7 9 90 = placementStep tanConst2 7 9 90 ∧
    placementStep tanConst1 7 9 90 = .ok (some (0, 7)) :=
  ⟨(axis_step_exact tanConst1 tanConst2 7 9 90 (by unfold isAxisDeg; norm_num)).1,
   (axis_step_exact tanConst1 tanConst2 7 9 90 (by unfold isAxisDeg; norm_num)).2.2.2.1 rfl⟩

/-! ## Claim C6 — distance to the nearest lattice point -/

unseal Rat.add Rat.mul Rat.inv Rat.sub in
/-- Claim C6: `distance_to_centerpoint` computes the minimum of the (squared)
Euclidean distances from `(x, y)` to the four surrounding lattice points
(ceil/floor in each coordinate independently), and returns 0 whenever both
coordinates are integral; in particular (squared) it maps `(2.5, 2.5)` to
`1/2 = sqrt(0.5)²` and `(2, 3)` to `0`. -/
theorem distance_to_centerpoint_spec :
    (∀ x y : ℚ,
      distance_to_centerpoint_sq x y =
        min (min (min (distance_between_two_points_sq (x, y) ((⌈x⌉ : ℚ), (⌈y⌉ : ℚ)))
                      (distance_between_two_points_sq (x, y) ((⌊x⌋ : ℚ), (⌊y⌋ : ℚ))))
                 (distance_between_two_points_sq (x, y) ((⌊x⌋ : ℚ), (⌈y⌉ : ℚ))))
            (distance_between_two_points_sq (x, y) ((⌈x⌉ : ℚ), (⌊y⌋ : ℚ)))) ∧
    (∀ x y : ℚ, x.den = 1 → y.den = 1 → distance_to_centerpoint_sq x y = 0) ∧
    distance_to_centerpoint_sq (5 / 2) (5 / 2) = 1 / 2 ∧
    distance_to_centerpoint_sq 2 3 = 0 := by
  refine ⟨?_, ?_, by decide, by decide⟩
  · intro x y
    unfold distance_to_centerpoint_sq
    split_ifs with h
    · obtain ⟨hx, hy⟩ := h
      obtain ⟨m, rfl⟩ : ∃ m : ℤ, x = (m : ℚ) := ⟨x.num, ((Rat.den_eq_one_iff x).mp hx).symm⟩
      obtain ⟨n, rfl⟩ : ∃ n : ℤ, y = (n : ℚ) := ⟨y.num, ((Rat.den_eq_one_iff y).mp hy).symm⟩
      simp [distance_between_two_points_sq, Int.ceil_intCast, Int.floor_intCast]
    · dsimp only
      have e1 : distance_between_two_points_sq (x, y) ((⌈x⌉ : ℚ), (⌈y⌉ : ℚ)) =
          (x - (⌈x⌉ : ℚ)) ^ 2 + (y - (⌈y⌉ : ℚ)) ^ 2 := by
        unfold distance_between_two_points_sq
        ring
      have e2 : distance_between_two_points_sq (x, y) ((⌊x⌋ : ℚ), (⌊y⌋ : ℚ)) =
          (x - (⌊x⌋ : ℚ)) ^ 2 + (y - (⌊y⌋ : ℚ)) ^ 2 := by
        unfold distance_between_two_points_sq
        ring
      have e3 : distance_between_two_points_sq (x, y) ((⌊x⌋ : ℚ), (⌈y⌉ : ℚ)) =
          (x - (⌊x⌋ : ℚ)) ^ 2 + (y - (⌈y⌉ : ℚ)) ^ 2 := by
        unfold distance_between_two_points_sq
        ring
      have e4 : distance_between_two_points_sq (x, y) ((⌈x⌉ : ℚ), (⌊y⌋ : ℚ)) =
          (x - (⌈x⌉ : ℚ)) ^ 2 + (y - (⌊y⌋ : ℚ)) ^ 2 := by
        unfold distance_between_two_points_sq
        ring
      rw [e1, e2, e3, e4]
  · intro x y hx hy
    unfold distance_to_centerpoint_sq
    rw [if_pos ⟨hx, hy⟩]

unseal Rat.add Rat.mul Rat.inv Rat.sub in
/-- Witness for C6: the integral fast path at the fresh input (5, 7). -/
theorem distance_to_centerpoint_spec_witness :
    (5 : ℚ).den = 1 ∧ (7 : ℚ).den = 1 ∧ distance_to_centerpoint_sq 5 7 = 0 :=
  ⟨by decide, by decide, distance_to_centerpoint_spec.2.1 5 7 (by decide) (by decide)⟩

/-! ## Claim C7 — the scans yield exactly the strictly-bounded points -/

/-- Claim C7: the x-scan yields exactly the points `(x, slope*x)` for integer
`x` in its range whose squared origin distance lies strictly between the
squared bounds, and the y-scan yields exactly the points `(y/slope, y)` (with
`x = 0` when `slope = 0`); a point whose distance equals either bound exactly
is never yielded. -/
theorem generator_membership (lower upper lower_bounds upper_bounds : ℤ) (slope : ℚ)
    (step : ℤ) :
    (∀ p : ℚ × ℚ,
      p ∈ x_generator lower upper lower_bounds upper_bounds slope step ↔
        ∃ x : ℤ, x ∈ pythonRange lower upper step ∧ p = ((x : ℚ), slope * (x : ℚ)) ∧
          (lower_bounds : ℚ) ^ 2 < distance_between_two_points_sq (0, 0) p ∧
          distance_between_two_points_sq (0, 0) p < (upper_bounds : ℚ) ^ 2) ∧
    (∀ p : ℚ × ℚ,
      p ∈ y_generator lower upper lower_bounds upper_bounds slope step ↔
        ∃ y : ℤ, y ∈ pythonRange lower upper step ∧
          p = ((if slope = 0 then 0 else (y : ℚ) / slope), (y : ℚ)) ∧
          (lower_bounds : ℚ) ^ 2 < distance_between_two_points_sq (0, 0) p ∧
          distance_between_two_points_sq (0, 0) p < (upper_bounds : ℚ) ^ 2) ∧
    (∀ p ∈ x_generator lower upper lower_bounds upper_bounds slope step,
      distance_between_two_points_sq (0, 0) p ≠ (lower_bounds : ℚ) ^ 2 ∧
      distance_between_two_points_sq (0, 0) p ≠ (upper_bounds : ℚ) ^ 2) ∧
    (∀ p ∈ y_generator lower upper lower_bounds upper_bounds slope step,
      distance_between_two_points_sq (0, 0) p ≠ (lower_bounds : ℚ) ^ 2 ∧
      distance_between_two_points_sq (0, 0) p ≠ (upper_bounds : ℚ) ^ 2) := by
  refine ⟨fun p => mem_x_generator, fun p => mem_y_generator, fun p hp => ?_, fun p hp => ?_⟩
  · obtain ⟨x, -, -, hl, hu⟩ := mem_x_generator.mp hp
    exact ⟨ne_of_gt hl, ne_of_lt hu⟩
  · obtain ⟨y, -, -, hl, hu⟩ := mem_y_generator.mp hp
    exact ⟨ne_of_gt hl, ne_of_lt hu⟩

unseal Rat.add Rat.mul Rat.inv Rat.sub in
/-- Witness for C7: on the diagonal scan with bounds 1 and 3, the point (1, 1)
(distance² 2) is yielded, and its distance differs from the lower bound. -/
theorem generator_membership_witness :
    ((1 : ℚ), (1 : ℚ)) ∈ x_generator 1 3 1 3 1 1 ∧
    distance_between_two_points_sq (0, 0) ((1 : ℚ), (1 : ℚ)) ≠ ((1 : ℤ) : ℚ) ^ 2 := by
  have h := generator_membership 1 3 1 3 1 1
  have hmem : ((1 : ℚ), (1 : ℚ)) ∈ x_generator 1 3 1 3 1 1 :=
    (h.1 _).mpr ⟨1, by decide, by norm_num, by decide, by decide⟩
  exact ⟨hmem, (h.2.2.1 _ hmem).1⟩

/-! ## Claim C10 — fall-through of the quadrant dispatch -/

/-- Claim C10: for every angle of at least 360 degrees, `coordinate_generator`
falls through all four quadrant branches and returns `None`; a placement
iteration that then iterates the result (any angle strictly above 360, which
is never axis-classified) fails with the `TypeError` rather than receiving an
empty candidate pool. -/
theorem coordinate_generator_none_of_ge_360 (tanD : ℚ → ℚ) (L U : ℤ) (a : ℚ)
    (h : 360 ≤ a) :
    coordinate_generator tanD L U a = none ∧
    (360 < a → placementStep tanD L U a = .error .typeError) := by
  have hcg : coordinate_generator tanD L U a = none := by
    unfold coordinate_generator
    dsimp only
    rw [if_neg (by linarith), if_neg (by linarith), if_neg (by linarith),
      if_neg (by linarith)]
  refine ⟨hcg, fun hgt => ?_⟩
  have hax : ¬ isAxisDeg a := by
    unfold isAxisDeg
    rintro (rfl | rfl | rfl | rfl | rfl) <;> linarith
  unfold placementStep
  rw [if_neg hax, hcg]

/-- Witness for C10 at the concrete angle 400. -/
theorem coordinate_generator_none_of_ge_360_witness :
    coordinate_generator tanConst1 10 20 400 = none ∧
    placementStep tanConst1 10 20 400 = .error .typeError :=
  ⟨(coordinate_generator_none_of_ge_360 tanConst1 10 20 400 (by norm_num)).1,
   (coordinate_generator_none_of_ge_360 tanConst1 10 20 400 (by norm_num)).2 (by norm_num)⟩

/-! ## Claim C1 — the possible outcomes of a call -/

unseal Rat.add Rat.mul Rat.inv Rat.sub in
/-- Claim C1: the specified failure semantics — a sequence of exactly `count`
points, or the GenerationIncomplete warning, and no other outcome — is the
design's stated contract, but the code does not implement it.  Evaluating the
call at the failing input count 3, offset (0, 0), minimum = maximum = 10:
every candidate pool is empty and the outcome is the `IndexError` of the
unguarded `arr[0]` selection, which preempts the final length check, so the
warning is never raised.  (A second slip lies outside this exact-rational
embedding: in IEEE doubles the final loop angle `(360/169) * 169` evaluates
to `360.00000000000006`, which fails the axis membership test and reaches the
`None` fall-through of `coordinate_generator` — the `TypeError` proved for
angles above 360 in the C10 theorem below — so `count = 169` with the default
bounds 10/20 fails with `TypeError`.) -/
theorem coordinate_placement_indexError_outcome :
    coordinate_placement tanConst1 3 (0, 0) 10 10 = .error .indexError ∧
    PyError.indexError ≠ PyError.generationIncomplete :=
  ⟨by decide, by decide⟩

/-! ## Claim C9 — empty pools raise IndexError, the warning is dead code -/

/-- Claim C9: for every call in which some loop angle is non-axis with an
empty candidate pool, `coordinate_placement` raises the `IndexError` at the
selection of the first sorted candidate; consequently the final length check
and its GenerationIncomplete warning are never reached on such executions. -/
theorem empty_pool_indexError (tanD : ℚ → ℚ) (count : ℕ) (offset : ℚ × ℚ) (L U : ℤ)
    (hc : 1 ≤ count)
    (hex : ∃ i, i < count ∧ ¬ isAxisDeg (angle_of count i) ∧
      candidatePool tanD L U (angle_of count i) = []) :
    coordinate_placement tanD count offset L U = .error .indexError := by
  obtain ⟨i, hi, hax, hpool⟩ := hex
  exact cp_indexError_of_empty_pool hc hi hax hpool

unseal Rat.add Rat.mul Rat.inv Rat.sub in
/-- Witness for C9: count 5 with inverted bounds 20/10 — the first angle, 72
degrees, is non-axis and its candidate pool is empty. -/
theorem empty_pool_indexError_witness :
    coordinate_placement tanConst1 5 (0, 0) 20 10 = .error .indexError :=
  empty_pool_indexError tanConst1 5 (0, 0) 20 10 (by norm_num)
    ⟨0, by norm_num, by decide, by decide⟩

/-! ## Claim C2 — inverted bounds -/

/-- Claim C2 (amended): with inverted bounds minimum = 20, maximum = 10, a
call whose angles are all axis-aligned (exactly the counts 1, 2 and 4)
returns normally, every point at radius 20; for every other count the first
angle `360/count` is non-axis, its candidate pool is empty (the strict
annulus test is unsatisfiable), and the call raises the `IndexError` — never
the GenerationIncomplete warning. -/
theorem inverted_bounds_behavior (tanD : ℚ → ℚ) (offset : ℚ × ℚ) (count : ℕ)
    (hc : 1 ≤ count) :
    (count = 1 → coordinate_placement tanD count offset 20 10 =
      .ok [(20 + offset.1, 0 + offset.2)]) ∧
    (count = 2 → coordinate_placement tanD count offset 20 10 =
      .ok [(-20 + offset.1, 0 + offset.2), (20 + offset.1, 0 + offset.2)]) ∧
    (count = 4 → coordinate_placement tanD count offset 20 10 =
      .ok [(0 + offset.1, 20 + offset.2), (-20 + offset.1, 0 + offset.2),
           (0 + offset.1, -20 + offset.2), (20 + offset.1, 0 + offset.2)]) ∧
    (count ≠ 1 → count ≠ 2 → count ≠ 4 →
      coordinate_placement tanD count offset 20 10 = .error .indexError) := by
  refine ⟨?_, ?_, ?_, ?_⟩
  · rintro rfl
    have h0 : placementStep tanD 20 10 (angle_of 1 0) = .ok (some (20, 0)) := by
      rw [show angle_of 1 0 = 360 by unfold angle_of; norm_num]
      exact (placementStep_axis tanD 20 10).2.2.2.2
    unfold coordinate_placement
    rw [show List.range 1 = [0] from rfl]
    simp [placeLoop, h0]
  · rintro rfl
    have h0 : placementStep tanD 20 10 (angle_of 2 0) = .ok (some (-20, 0)) := by
      rw [show angle_of 2 0 = 180 by unfold angle_of; norm_num]
      exact (placementStep_axis tanD 20 10).2.2.1
    have h1 : placementStep tanD 20 10 (angle_of 2 1) = .ok (some (20, 0)) := by
      rw [show angle_of 2 1 = 360 by unfold angle_of; norm_num]
      exact (placementStep_axis tanD 20 10).2.2.2.2
    unfold coordinate_placement
    rw [show List.range 2 = [0, 1] from rfl]
    simp [placeLoop, h0, h1]
  · rintro rfl
    have h0 : placementStep tanD 20 10 (angle_of 4 0) = .ok (some (0, 20)) := by
      rw [show angle_of 4 0 = 90 by unfold angle_of; norm_num]
      exact (placementStep_axis tanD 20 10).2.1
    have h1 : placementStep tanD 20 10 (angle_of 4 1) = .ok (some (-20, 0)) := by
      rw [show angle_of 4 1 = 180 by unfold angle_of; norm_num]
      exact (placementStep_axis tanD 20 10).2.2.1
    have h2 : placementStep tanD 20 10 (angle_of 4 2) = .ok (some (0, -20)) := by
      rw [show angle_of 4 2 = 270 by unfold angle_of; norm_num]
      exact (placementStep_axis tanD 20 10).2.2.2.1
    have h3 : placementStep tanD 20 10 (angle_of 4 3) = .ok (some (20, 0)) := by
      rw [show angle_of 4 3 = 360 by unfold angle_of; norm_num]
      exact (placementStep_axis tanD 20 10).2.2.2.2
    unfold coordinate_placement
    rw [show List.range 4 = [0, 1, 2, 3] from rfl]
    simp [placeLoop, h0, h1, h2, h3]
  · intro hn1 hn2 hn4
    obtain ⟨k, rfl⟩ : ∃ k, count = k + 1 := ⟨count - 1, by omega⟩
    have hne : ((k : ℚ) + 1) ≠ 0 := by positivity
    have hax : ¬ isAxisDeg (angle_of (k + 1) 0) := by
      unfold isAxisDeg angle_of
      push_cast
      rintro (h | h | h | h | h) <;>
        rw [div_mul_eq_mul_div, div_eq_iff hne] at h <;>
        norm_num at h
      · have hk : (360 : ℕ) = 90 * (k + 1) := by exact_mod_cast h
        omega
      · have hk : (360 : ℕ) = 180 * (k + 1) := by exact_mod_cast h
        omega
      · have h3 : (3 : ℚ) * k = 1 := by linarith
        have hk : (3 * k : ℕ) = 1 := by exact_mod_cast h3
        omega
      · have hk : k = 0 := by exact_mod_cast h
        omega
    have hpool : candidatePool tanD 20 10 (angle_of (k + 1) 0) = [] :=
      candidatePool_empty_of_inverted (by norm_num)
    exact cp_indexError_of_empty_pool (by omega) (by omega) hax hpool

/-- Witness for C2 at the non-axis count 3. -/
theorem inverted_bounds_behavior_witness :
    coordinate_placement tanConst1 3 (0, 0) 20 10 = .error .indexError :=
  (inverted_bounds_behavior tanConst1 (0, 0) 3 (by norm_num)).2.2.2
    (by norm_num) (by norm_num) (by norm_num)

unseal Rat.add Rat.mul Rat.inv Rat.sub in
/-- Counterexample to C2 as stated: with count 1 and inverted bounds
minimum = 20 > maximum = 10, the call returns normally (the single angle 360
is axis-classified and placed at radius 20) — no exception at all. -/
theorem inverted_bounds_returns_normally :
    coordinate_placement tanConst1 1 (0, 0) 20 10 = .ok [(20, 0)] := by decide

/-! ## Claim C5 — the offset is a pure translation -/

/-- Claim C5: whenever a call with offset `o` and the same call with offset
`(0, 0)` both succeed, the first result is the pointwise translation of the
second by `o` — as a whole list and at every index. -/
theorem offset_translation (tanD : ℚ → ℚ) (count : ℕ) (o : ℚ × ℚ) (L U : ℤ)
    (r r₀ : List (ℚ × ℚ))
    (h : coordinate_placement tanD count o L U = .ok r)
    (h₀ : coordinate_placement tanD count (0, 0) L U = .ok r₀) :
    r = r₀.map (fun p => (p.1 + o.1, p.2 + o.2)) ∧
    ∀ i (hi : i < r.length) (hi₀ : i < r₀.length),
      r[i] = ((r₀[i]).1 + o.1, (r₀[i]).2 + o.2) := by
  unfold coordinate_placement at h h₀
  cases hl : placeLoop tanD count L U (List.range count) with
  | error e =>
    rw [hl] at h
    cases h
  | ok base =>
    rw [hl] at h h₀
    dsimp only at h h₀
    simp only [List.length_map] at h h₀
    split_ifs at h h₀ with hcond
    cases h
    cases h₀
    refine ⟨?_, ?_⟩
    · rw [List.map_map]
      apply List.map_congr_left
      intro p _
      simp
    · intro i hi hi₀
      simp [List.getElem_map]

unseal Rat.add Rat.mul Rat.inv Rat.sub in
/-- Witness for C5 with offset (5, 5) at count 1 with the default bounds. -/
theorem offset_translation_witness :
    [((15 : ℚ), (5 : ℚ))] =
      [((10 : ℚ), (0 : ℚ))].map (fun p => (p.1 + 5, p.2 + 5)) :=
  (offset_translation tanConst1 1 (5, 5) 10 20 [(15, 5)] [(10, 0)]
    (by decide) (by decide)).1

/-! ## Claim C8 — candidate selection -/

/-- Claim C8: for every non-axis angle with a nonempty candidate pool, the
appended point is obtained by taking a candidate minimal under the
lexicographic order on (lattice-snap distance, origin distance) over the
concatenation of the two scans, and rounding each of its coordinates
independently to a nearest integer (within 1/2). -/
theorem selection_lex_minimal (tanD : ℚ → ℚ) (L U : ℤ) (a : ℚ)
    (hax : ¬ isAxisDeg a) (h360 : a < 360) (hpool : candidatePool tanD L U a ≠ []) :
    ∃ best, best ∈ candidatePool tanD L U a ∧
      (∀ c ∈ candidatePool tanD L U a,
        keyLe (distance_to_centerpoint_sq best.1 best.2,
               distance_between_two_points_sq (0, 0) best)
              (distance_to_centerpoint_sq c.1 c.2,
               distance_between_two_points_sq (0, 0) c)) ∧
      placementStep tanD L U a = .ok (some (pyround best.1, pyround best.2)) ∧
      |(pyround best.1 : ℚ) - best.1| ≤ 1 / 2 ∧
      |(pyround best.2 : ℚ) - best.2| ≤ 1 / 2 := by
  obtain ⟨best, h1, h2, h3⟩ := placementStep_select hax h360 hpool
  exact ⟨best, h1, h2, h3, pyround_nearest _, pyround_nearest _⟩

unseal Rat.add Rat.mul Rat.inv Rat.sub in
/-- Witness for C8 at the concrete angle 45 with slope 1 and bounds 1, 4. -/
theorem selection_lex_minimal_witness :
    placementStep tanConst1 1 4 45 = .ok (some (1, 1)) ∧
    candidatePool tanConst1 1 4 45 ≠ [] := by
  obtain ⟨best, hmem, -, -, -, -⟩ :=
    selection_lex_minimal tanConst1 1 4 45 (by decide) (by norm_num) (by decide)
  refine ⟨by decide, fun hnil => ?_⟩
  rw [hnil] at hmem
  cases hmem

/-! ## Claim C3 — distances of the output points -/

/-- Claim C3 (amended): on a non-axis angle the appended point is the
rounding of a candidate whose squared distance from the origin lies strictly
between the squared bounds (the claim's strict annulus bound holds for the
selected candidate before rounding — the rounded output itself can land
exactly on the minimum circle, see the counterexample); on an axis angle the
appended point lies at squared distance exactly minimum². -/
theorem nonaxis_output_from_bounded_candidate (tanD : ℚ → ℚ) (L U : ℤ) (a : ℚ) :
    (¬ isAxisDeg a → a < 360 → ∀ p : ℤ × ℤ,
      placementStep tanD L U a = .ok (some p) →
      ∃ c, c ∈ candidatePool tanD L U a ∧
        (L : ℚ) ^ 2 < distance_between_two_points_sq (0, 0) c ∧
        distance_between_two_points_sq (0, 0) c < (U : ℚ) ^ 2 ∧
        p = (pyround c.1, pyround c.2)) ∧
    (isAxisDeg a → ∀ p : ℤ × ℤ,
      placementStep tanD L U a = .ok (some p) →
      distance_between_two_points_sq (0, 0) ((p.1 : ℚ), (p.2 : ℚ)) = (L : ℚ) ^ 2) := by
  constructor
  · intro hax h360 p hp
    have hpool : candidatePool tanD L U a ≠ [] := by
      intro hnil
      rw [placementStep_of_empty_pool hax h360 hnil] at hp
      cases hp
    obtain ⟨best, h1, h2, h3⟩ := placementStep_select hax h360 hpool
    have hbounds := candidatePool_bounds h1
    obtain h' := Except.ok.inj (h3.symm.trans hp)
    exact ⟨best, h1, hbounds.1, hbounds.2, (Option.some.inj h').symm⟩
  · intro hax p hp
    unfold isAxisDeg at hax
    rcases hax with rfl | rfl | rfl | rfl | rfl
    · obtain h' := Option.some.inj (Except.ok.inj
        ((placementStep_axis tanD L U).1.symm.trans hp))
      rw [← h']
      unfold distance_between_two_points_sq
      push_cast
      ring
    · obtain h' := Option.some.inj (Except.ok.inj
        ((placementStep_axis tanD L U).2.1.symm.trans hp))
      rw [← h']
      unfold distance_between_two_points_sq
      push_cast
      ring
    · obtain h' := Option.some.inj (Except.ok.inj
        ((placementStep_axis tanD L U).2.2.1.symm.trans hp))
      rw [← h']
      unfold distance_between_two_points_sq
      push_cast
      ring
    · obtain h' := Option.some.inj (Except.ok.inj
        ((placementStep_axis tanD L U).2.2.2.1.symm.trans hp))
      rw [← h']
      unfold distance_between_two_points_sq
      push_cast
      ring
    · obtain h' := Option.some.inj (Except.ok.inj
        ((placementStep_axis tanD L U).2.2.2.2.symm.trans hp))
      rw [← h']
      unfold distance_between_two_points_sq
      push_cast
      ring

unseal Rat.add Rat.mul Rat.inv Rat.sub in
/-- Witness for C3 at the concrete angle 45 with slope 1 and bounds 1, 3. -/
theorem nonaxis_output_from_bounded_candidate_witness :
    placementStep tanConst1 1 3 45 = .ok (some (1, 1)) ∧
    candidatePool tanConst1 1 3 45 ≠ [] := by
  obtain ⟨c, hmem, -, -, -⟩ :=
    (nonaxis_output_from_bounded_candidate tanConst1 1 3 45).1
      (by decide) (by norm_num) (1, 1) (by decide)
  refine ⟨by decide, fun hnil => ?_⟩
  rw [hnil] at hmem
  cases hmem

set_option maxRecDepth 4000 in
unseal Rat.add Rat.mul Rat.inv Rat.sub in
/-- Counterexample to C3 as stated: the call with count 9, offset (0, 0),
minimum 5 and maximum 6 — with the tangent function holding the exact IEEE
double values of `tan(radians(40k))` — succeeds, and its first output point
(4, 3), produced for the non-axis angle 40, has squared distance from the
origin exactly 25 = minimum², not strictly greater.  (The selected candidate
was (4, 4·tan 40°) ≈ (4, 3.356) at distance ≈ 5.22; rounding its second
coordinate moved it onto the minimum circle.) -/
theorem output_point_at_minimum_radius :
    coordinate_placement tanDeg9 9 (0, 0) 5 6 =
      .ok [(4, 3), (1, 5), (-3, 5), (-5, 2), (-5, -2), (-3, -5), (1, -5), (4, -3), (5, 0)] ∧
    ¬ isAxisDeg (angle_of 9 0) ∧
    angle_of 9 0 = 40 ∧
    distance_between_two_points_sq (0, 0) (4, 3) = ((5 : ℤ) : ℚ) ^ 2 :=
  ⟨by decide, by decide, by decide, by decide⟩

end BeaconPlacer
